import Mathlib

/-!
# Verification of the PyFR backend base types (`pyfr/backends/base/types.py`)

A shallow embedding of the matrix/view data-layout layer of the PyFR
backend abstraction, together with theorems settling the specification
claims about it.

Modelling conventions:
* A Python `Matrix` object is modelled by the structure `Mat`; dtypes and
  base-allocation buffers are opaque identifiers (`Nat`).
* Python `set` objects of string tags are modelled as `Finset String`.
* Python integers are unbounded `Int`.  The per-point offset and
  leading-dimension arrays of `View.__init__`, however, are materialised
  as `np.int32` (`types.py` lines 155-156): stores into them and the
  elementwise arithmetic on them wrap at 32 bits, modelled by the
  explicit two's-complement wrap `toInt32` (with `add32`/`mul32` for the
  elementwise NumPy operations).  The caller-supplied `rcmap`/`stridemap`
  lists hold the entries of the corresponding int32 index ndarrays.
* A raising constructor or method is a function into `Except PyError _`;
  a raising mutator is embedded by explicit state passing, returning the
  post-state together with `Option PyError`.
* NumPy index arrays (`matmap`, `rcmap`, `stridemap`) are lists; the
  source's ndarray operations require conforming shapes, which appear as
  length hypotheses on the theorems.
-/

/-- The Python exception kinds raised by `pyfr/backends/base/types.py`. -/
inductive PyError where
  | valueError : String → PyError
  | typeError : String → PyError
  | runtimeError : String → PyError
  | indexError : PyError
deriving DecidableEq, Repr

/-- A matrix as seen by this layer: the attribute surface of
`MatrixBase`/`Matrix` objects used by `types.py` (`nrow`, `ncol`,
`leaddim`, `leadsubdim`, `dtype`, `itemsize`, `offset`, `basedata`,
`tags`).  `dtype` and `basedata` are opaque identifiers. -/
structure Mat where
  nrow : Nat
  ncol : Nat
  leaddim : Nat
  leadsubdim : Nat
  dtype : Nat
  itemsize : Nat
  offset : Int
  basedata : Nat
  tags : Finset String
deriving DecidableEq

/-- Embeds `MatrixBase.traits`: the tuple `(nrow, leaddim, leadsubdim, dtype)`. -/
def Mat.traits (m : Mat) : Nat × Nat × Nat × Nat :=
  (m.nrow, m.leaddim, m.leadsubdim, m.dtype)

/-- Embeds `MatrixBase.pitch`: `leaddim * itemsize`. -/
def Mat.pitch (m : Mat) : Nat :=
  m.leaddim * m.itemsize

/-- Python list indexing `xs[i]`: negative indices count from the end;
out-of-range indices raise `IndexError` (modelled as `none`). -/
def pyGet (xs : List α) (i : Int) : Option α :=
  let j : Int := if i < 0 then i + (xs.length : Int) else i
  if 0 ≤ j then xs.get? j.toNat else none

/-- The backend collaborator, reduced to the capability `types.py` uses at
construction time: the `isinstance(m, backend.matrix_cls)` check. -/
structure Backend where
  is_matrix_cls : Mat → Bool

/-- Embeds `MatrixRSlice`: a slice of a matrix.  Fields are those set by
`MatrixRSlice.__init__`; `nrow` is the Python integer `q - p`. -/
structure MatrixRSlice where
  parent : Mat
  nrow : Int
  ncol : Nat
  dtype : Nat
  itemsize : Nat
  leaddim : Nat
  leadsubdim : Nat
  tags : Finset String
deriving DecidableEq

/-- Embeds `MatrixRSlice.traits`: `(nrow, leaddim, leadsubdim, dtype)`. -/
def MatrixRSlice.traits (s : MatrixRSlice) : Int × Nat × Nat × Nat :=
  (s.nrow, s.leaddim, s.leadsubdim, s.dtype)

/-- Embeds `MatrixRSlice.pitch`: `leaddim * itemsize`. -/
def MatrixRSlice.pitch (s : MatrixRSlice) : Nat :=
  s.leaddim * s.itemsize

/-- Embeds `MatrixRSlice.__init__(backend, mat, p, q)`: raises
`ValueError('Invalid row slice')` when `p < 0 or q > mat.nrow or q < p`,
otherwise copies the parent's layout, narrows the row count to `q - p`
and adds a `'slice'` tag. -/
def matrix_rslice (mat : Mat) (p q : Int) : Except PyError MatrixRSlice :=
  if p < 0 ∨ q > (mat.nrow : Int) ∨ q < p then
    .error (.valueError ("Invalid row slice"))
  else
    .ok { parent := mat
          nrow := q - p
          ncol := mat.ncol
          dtype := mat.dtype
          itemsize := mat.itemsize
          leaddim := mat.leaddim
          leadsubdim := mat.leadsubdim
          tags := mat.tags ∪ {"slice"} }

/-- Embeds `any(m.traits != mats[0].traits for m in mats[1:])`: the trait
homogeneity check of `MatrixBank.__init__`.  On an empty list the
generator is empty and the check passes. -/
def traitsHetero (mats : List Mat) : Bool :=
  match mats with
  | [] => false
  | m0 :: rest => rest.any (fun m => m.traits ≠ m0.traits)

/-- Embeds `any(m.tags != mats[0].tags for m in mats[1:])`: the tag homogeneity
check of `MatrixBank.__init__`. -/
def tagsHetero (mats : List Mat) : Bool :=
  match mats with
  | [] => false
  | m0 :: rest => rest.any (fun m => m.tags ≠ m0.tags)

/-- Embeds `MatrixBank`: fields set by `MatrixBank.__init__` (`tags`, `_mats`,
`_curr_idx`, `_curr_mat`).  `curr_idx` is the raw Python value assigned,
hence an `Int`. -/
structure MatrixBank where
  tags : Finset String
  mats : List Mat
  curr_idx : Int
  curr_mat : Mat
deriving DecidableEq

/-- Embeds `MatrixBank.__init__(backend, mats, initbank, tags)`: rejects
trait-heterogeneous members, then tag-heterogeneous members (both
`ValueError`); then evaluates `tags | mats[0].tags` and
`mats[initbank]`, each of which raises `IndexError` when out of range. -/
def matrixBank_init (mats : List Mat) (initbank : Int) (tags : Finset String) :
    Except PyError MatrixBank :=
  if traitsHetero mats then
    .error (.valueError ("Matrices in a bank must be homogeneous"))
  else if tagsHetero mats then
    .error (.valueError ("Matrices in a bank must share tags"))
  else
    match mats with
    | [] => .error .indexError
    | m0 :: _ =>
      match pyGet mats initbank with
      | none => .error .indexError
      | some cm =>
        .ok { tags := tags ∪ m0.tags
              mats := mats
              curr_idx := initbank
              curr_mat := cm }

/-- Embeds `MatrixBank.__len__`. -/
def MatrixBank.len (b : MatrixBank) : Nat :=
  b.mats.length

/-- Embeds `MatrixBank.__getattr__(attr)`: an attribute lookup not defined on the
bank itself is forwarded to the active member `_curr_mat`.  The attribute
name is embedded as an accessor function on matrices. -/
def MatrixBank.getattr (b : MatrixBank) (f : Mat → α) : α :=
  f b.curr_mat

/-- The `MatrixBank.active` property getter: returns `_curr_idx`. -/
def MatrixBank.active (b : MatrixBank) : Int :=
  b.curr_idx

/-- The `MatrixBank.active` property setter: assigns `_curr_idx = idx` and
then `_curr_mat = self._mats[idx]`; the second assignment raises
`IndexError` when `idx` is out of range, after `_curr_idx` has already
been updated.  Returns the post-state and the raised exception, if any. -/
def MatrixBank.setActive (b : MatrixBank) (idx : Int) :
    MatrixBank × Option PyError :=
  let b1 := { b with curr_idx := idx }
  match pyGet b1.mats idx with
  | some m => ({ b1 with curr_mat := m }, none)
  | none => (b1, some .indexError)

/-- Embeds `MatrixBank.rslice(p, q)`: always raises
`RuntimeError('Matrix banks can not be sliced')`; the bank state is
returned unchanged by this pure embedding of the method. -/
def MatrixBank.rslice (b : MatrixBank) (p q : Int) :
    Except PyError MatrixRSlice × MatrixBank :=
  (.error (.runtimeError ("Matrix banks can not be sliced")), b)

/-- Signed 32-bit wrap-around: the value held by an `np.int32` cell
after storing the integer `x` (two's complement, range `[-2^31, 2^31)`).
`View.__init__` materialises its per-point offset and leading-dimension
arrays with `np.empty(self.n, dtype=np.int32)`, so every store into them
and every elementwise operation on them is carried out at this width. -/
def toInt32 (x : Int) : Int :=
  (x + 2 ^ 31) % 2 ^ 32 - 2 ^ 31

/-- Elementwise NumPy addition of int32 operands: add, then wrap. -/
def add32 (a b : Int) : Int :=
  toInt32 (a + b)

/-- Elementwise NumPy multiplication of int32 operands: multiply, then
wrap. -/
def mul32 (a b : Int) : Int :=
  toInt32 (a * b)

theorem toInt32_sub_dvd (x : Int) : (2 ^ 32 : Int) ∣ (x - toInt32 x) := by
  refine ⟨(x + 2 ^ 31) / 2 ^ 32, ?_⟩
  simp only [toInt32]
  omega

theorem toInt32_eq_of_sub_dvd (u v : Int) (h : (2 ^ 32 : Int) ∣ (u - v)) :
    toInt32 u = toInt32 v := by
  obtain ⟨k, hk⟩ := h
  simp only [toInt32]
  omega

theorem mul32_toInt32_right (a b : Int) : mul32 a (toInt32 b) = mul32 a b := by
  apply toInt32_eq_of_sub_dvd
  obtain ⟨k, hk⟩ := toInt32_sub_dvd b
  exact ⟨-(a * k), by linear_combination (-a) * hk⟩

theorem add32_toInt32_left (a b : Int) : add32 (toInt32 a) b = add32 a b := by
  apply toInt32_eq_of_sub_dvd
  obtain ⟨k, hk⟩ := toInt32_sub_dvd a
  exact ⟨-k, by linear_combination -hk⟩

theorem add32_toInt32_right (a b : Int) : add32 a (toInt32 b) = add32 a b := by
  apply toInt32_eq_of_sub_dvd
  obtain ⟨k, hk⟩ := toInt32_sub_dvd b
  exact ⟨-k, by linear_combination -hk⟩

/-- Collapse of the intermediate int32 wraps: the mapping expression
`(offset + rcmap[:,0]*leaddim) + rcmap[:,1]`, evaluated step by step on
int32-stored offset and leading-dimension cells, equals the single int32
wrap of the exact integer value. -/
theorem mapping_collapse (o l r1 r2 : Int) :
    add32 (add32 (toInt32 o) (mul32 r1 (toInt32 l))) r2 =
      toInt32 (o + r1 * l + r2) := by
  rw [mul32_toInt32_right, add32_toInt32_left,
      show mul32 r1 l = toInt32 (r1 * l) from rfl, add32_toInt32_right,
      show add32 o (r1 * l) = toInt32 (o + r1 * l) from rfl, add32_toInt32_left]
  rfl

/-- Embeds `View`: fields set by `View.__init__` (`n`, `nvrow`, `nvcol`,
`_mats`, `basedata`, `refdtype`, `mapping`, and the conditionally set
`rstrides`/`cstrides`, which are `none` exactly when the corresponding
attribute is never assigned). -/
structure View where
  n : Nat
  nvrow : Nat
  nvcol : Nat
  mats : List Mat
  basedata : Nat
  refdtype : Nat
  mapping : List Int
  rstrides : Option (List Int)
  cstrides : Option (List Int)
deriving DecidableEq

/-- The scatter-fill loop of `View.__init__`:
`for m in self._mats: ix = np.where(matmap == m); arr[ix] = f(m)`.
Each pass writes `f m` into every position of `arr` whose `matmap` entry
equals `m`.  `init` models the `np.empty` array the loop fills. -/
def scatterFill (mats : List Mat) (matmap : List Mat) (f : Mat → Int)
    (init : List Int) : List Int :=
  mats.foldl
    (fun arr m => List.zipWith (fun mm v => if mm = m then f m else v) matmap arr)
    init

/-- Embeds `View.__init__(backend, matmap, rcmap, stridemap, vshape, tags)`
(the `tags` argument is accepted but never used or stored by this base
class, so it is omitted here).
`matmap` is the flat per-point matrix map, `rcmap` the per-point
`(row, col)` pairs (`rcmap[:,0]`, `rcmap[:,1]`), `stridemap` the
per-point stride rows (`stridemap[:,0]`, `stridemap[:,-1]`).  The
distinct-matrix set `list(set(matmap.flat))` is modelled by `dedup`;
`self._mats[0]` on an empty map raises `IndexError`.  The three
validation checks raise `TypeError` in source order.  The ndarray
arithmetic assumes `rcmap` and `stridemap` conform to `matmap`'s length,
as NumPy requires. -/
def view_init (backend : Backend) (matmap : List Mat)
    (rcmap : List (Int × Int)) (stridemap : List (List Int))
    (vshape : List Nat) : Except PyError View :=
  let n := matmap.length
  -- nvrow = vshape[-2] if len(vshape) == 2 else 1  (index -2 is index 0 here)
  let nvrow := if vshape.length = 2 then vshape.getD 0 1 else 1
  -- nvcol = vshape[-1] if len(vshape) >= 1 else 1
  let nvcol := if vshape.length ≥ 1 then vshape.getLastD 1 else 1
  let mats := matmap.dedup
  match mats with
  | [] => .error .indexError
  | m0 :: _ =>
    let basedata := m0.basedata
    let refdtype := m0.dtype
    if mats.any (fun m => ¬ backend.is_matrix_cls m) then
      .error (.typeError ("Incompatible matrix type for view"))
    else if mats.any (fun m => m.basedata ≠ basedata) then
      .error (.typeError ("All viewed matrices must belong to the same allocation extent"))
    else if mats.any (fun m => m.dtype ≠ refdtype) then
      .error (.typeError ("Mixed data types are not supported"))
    else
      -- offset = np.empty(n, dtype=np.int32); leaddim likewise:
      -- every store into these cells wraps to int32
      let offset := scatterFill mats matmap (fun m => toInt32 m.offset)
        (List.replicate n 0)
      let leaddim := scatterFill mats matmap (fun m => toInt32 (m.leaddim : Int))
        (List.replicate n 0)
      -- mapping = (offset + rcmap[:,0]*leaddim + rcmap[:,1])[None,:],
      -- evaluated left to right in int32 elementwise arithmetic
      let mapping := List.zipWith3
        (fun o (rc : Int × Int) l => add32 (add32 o (mul32 rc.1 l)) rc.2)
        offset rcmap leaddim
      -- if nvrow > 1: rstrides = (stridemap[:,0]*leaddim)[None,:], int32 product
      let rstrides := if nvrow > 1 then
        some (List.zipWith (fun (row : List Int) l => mul32 (row.headD 0) l)
          stridemap leaddim)
      else none
      -- if nvcol > 1: cstrides = stridemap[:,-1][None,:]
      let cstrides := if nvcol > 1 then
        some (stridemap.map (fun row => row.getLastD 0))
      else none
      .ok { n := n, nvrow := nvrow, nvcol := nvcol, mats := mats
            basedata := basedata, refdtype := refdtype
            mapping := mapping, rstrides := rstrides, cstrides := cstrides }

/-- The staging matrix produced by the backend's `mpi_matrix` factory,
reduced to the attributes `MPIView.__init__` fixes.

Modelled from the spec: the concrete backend `mpi_matrix` factory is not
part of this layer; per the spec it "allocates a staging Array whose
shape is `(row-multiplicity, column-multiplicity, point-count)` tagged
for exchange, on the same backend". -/
structure MPIMat where
  ioshape : List Nat
  tags : Finset String
deriving DecidableEq

/-- Modelled from the spec: the backend `mpi_matrix` factory allocates a
staging matrix with the requested shape, carrying the requested tags. -/
def Backend.mpi_matrix (_bk : Backend) (ioshape : List Nat)
    (tags : Finset String) : MPIMat :=
  { ioshape := ioshape, tags := tags }

/-- Modelled from the spec: the backend `view` factory "builds an
ordinary View over the given maps" — it runs the `View` constructor of
this layer on the same backend and arguments. -/
def Backend.view (bk : Backend) (matmap : List Mat)
    (rcmap : List (Int × Int)) (stridemap : List (List Int))
    (vshape : List Nat) : Except PyError View :=
  view_init bk matmap rcmap stridemap vshape

/-- Embeds `MPIView`: fields set by `MPIView.__init__` (`view`, `n`, `nvrow`,
`nvcol`, `mpimat`). -/
structure MPIView where
  view : View
  n : Nat
  nvrow : Nat
  nvcol : Nat
  mpimat : MPIMat
deriving DecidableEq

/-- Embeds `MPIView.__init__(backend, matmap, rcmap, stridemap, vshape, tags)`:
creates a normal view via `backend.view`, copies its `n`, `nvrow`,
`nvcol`, and allocates `backend.mpi_matrix((nvrow, nvcol, n), tags)`. -/
def mpi_view_init (backend : Backend) (matmap : List Mat)
    (rcmap : List (Int × Int)) (stridemap : List (List Int))
    (vshape : List Nat) (tags : Finset String) : Except PyError MPIView :=
  match backend.view matmap rcmap stridemap vshape with
  | .error e => .error e
  | .ok v =>
    .ok { view := v
          n := v.n
          nvrow := v.nvrow
          nvcol := v.nvcol
          mpimat := backend.mpi_matrix [v.nvrow, v.nvcol, v.n] tags }

theorem getElem?_zipWith3 (f : α → β → γ → δ) (l₁ : List α) (l₂ : List β)
    (l₃ : List γ) (i : Nat) :
    (List.zipWith3 f l₁ l₂ l₃)[i]? =
      l₁[i]?.bind fun a => l₂[i]?.bind fun b => l₃[i]?.map fun c => f a b c := by
  induction l₁ generalizing l₂ l₃ i with
  | nil => simp [List.zipWith3]
  | cons a as ih =>
    cases l₂ with
    | nil => simp [List.zipWith3]
    | cons b bs =>
      cases l₃ with
      | nil => simp [List.zipWith3]
      | cons c cs =>
        cases i with
        | zero => simp [List.zipWith3]
        | succ i => simpa [List.zipWith3] using ih bs cs i

theorem length_zipWith3 (f : α → β → γ → δ) (l₁ : List α) (l₂ : List β)
    (l₃ : List γ) :
    (List.zipWith3 f l₁ l₂ l₃).length = min l₁.length (min l₂.length l₃.length) := by
  induction l₁ generalizing l₂ l₃ with
  | nil => simp [List.zipWith3]
  | cons a as ih =>
    cases l₂ with
    | nil => simp [List.zipWith3]
    | cons b bs =>
      cases l₃ with
      | nil => simp [List.zipWith3]
      | cons c cs =>
        simp only [List.zipWith3, List.length_cons, ih bs cs]
        omega

theorem scatterFill_length (mats matmap : List Mat) (f : Mat → Int)
    (init : List Int) (hlen : init.length = matmap.length) :
    (scatterFill mats matmap f init).length = matmap.length := by
  induction mats generalizing init with
  | nil => simpa [scatterFill] using hlen
  | cons m rest ih =>
    show (scatterFill rest matmap f _).length = _
    exact ih _ (by simp [List.length_zipWith, hlen])

theorem scatterFill_getElem?_notmem (mats matmap : List Mat) (f : Mat → Int)
    (init : List Int) (i : Nat) (mm : Mat)
    (hlen : init.length = matmap.length) (hi : matmap[i]? = some mm)
    (hnm : mm ∉ mats) :
    (scatterFill mats matmap f init)[i]? = init[i]? := by
  induction mats generalizing init with
  | nil => simp [scatterFill]
  | cons m rest ih =>
    have hmm : mm ≠ m := fun h => hnm (h ▸ List.mem_cons_self m rest)
    have hil : i < matmap.length := (List.getElem?_eq_some.mp hi).1
    have hii : i < init.length := by omega
    have hv : init[i]? = some init[i] := List.getElem?_eq_some.mpr ⟨hii, rfl⟩
    have hstep :
        (List.zipWith (fun mmx vx => if mmx = m then f m else vx) matmap init)[i]?
          = init[i]? := by
      rw [List.getElem?_zipWith', hi, hv]
      simp [if_neg hmm, hv]
    have := ih (List.zipWith (fun mmx vx => if mmx = m then f m else vx) matmap init)
      (by simp [List.length_zipWith, hlen]) (fun h => hnm (List.mem_cons_of_mem m h))
    calc (scatterFill (m :: rest) matmap f init)[i]?
        = (scatterFill rest matmap f
            (List.zipWith (fun mmx vx => if mmx = m then f m else vx) matmap init))[i]? := rfl
      _ = _ := by rw [this, hstep]

theorem scatterFill_getElem?_mem (mats matmap : List Mat) (f : Mat → Int)
    (init : List Int) (i : Nat) (mm : Mat)
    (hlen : init.length = matmap.length) (hi : matmap[i]? = some mm)
    (hm : mm ∈ mats) :
    (scatterFill mats matmap f init)[i]? = some (f mm) := by
  induction mats generalizing init with
  | nil => simp at hm
  | cons m rest ih =>
    have hil : i < matmap.length := (List.getElem?_eq_some.mp hi).1
    have hii : i < init.length := by omega
    have hv : init[i]? = some init[i] := List.getElem?_eq_some.mpr ⟨hii, rfl⟩
    have hlen' : (List.zipWith (fun mmx vx => if mmx = m then f m else vx) matmap init).length
        = matmap.length := by simp [List.length_zipWith, hlen]
    by_cases hmr : mm ∈ rest
    · exact ih _ hlen' hmr
    · have hmm : mm = m := by
        rcases List.mem_cons.mp hm with h | h
        · exact h
        · exact absurd h hmr
      subst hmm
      have hstep :
          (List.zipWith (fun mmx vx => if mmx = mm then f mm else vx) matmap init)[i]?
            = some (f mm) := by
        rw [List.getElem?_zipWith', hi, hv]
        simp
      calc (scatterFill (mm :: rest) matmap f init)[i]?
          = (scatterFill rest matmap f
              (List.zipWith (fun mmx vx => if mmx = mm then f mm else vx) matmap init))[i]? := rfl
        _ = some (f mm) := by
            rw [scatterFill_getElem?_notmem rest matmap f _ i mm hlen' hi hmr, hstep]

/-- Unpacking lemma: the fields of a successfully constructed view, in
terms of the constructor arguments. -/
theorem view_init_ok (backend : Backend) (matmap : List Mat)
    (rcmap : List (Int × Int)) (stridemap : List (List Int))
    (vshape : List Nat) (v : View)
    (hok : view_init backend matmap rcmap stridemap vshape = .ok v) :
    v.n = matmap.length ∧
    v.nvrow = (if vshape.length = 2 then vshape.getD 0 1 else 1) ∧
    v.nvcol = (if vshape.length ≥ 1 then vshape.getLastD 1 else 1) ∧
    v.mats = matmap.dedup ∧
    v.mapping = List.zipWith3
      (fun o (rc : Int × Int) l => add32 (add32 o (mul32 rc.1 l)) rc.2)
      (scatterFill matmap.dedup matmap (fun m => toInt32 m.offset)
        (List.replicate matmap.length 0))
      rcmap
      (scatterFill matmap.dedup matmap (fun m => toInt32 (m.leaddim : Int))
        (List.replicate matmap.length 0)) ∧
    v.rstrides = (if v.nvrow > 1 then
      some (List.zipWith (fun (row : List Int) l => mul32 (row.headD 0) l) stridemap
        (scatterFill matmap.dedup matmap (fun m => toInt32 (m.leaddim : Int))
          (List.replicate matmap.length 0)))
      else none) ∧
    v.cstrides = (if v.nvcol > 1 then
      some (stridemap.map (fun row => row.getLastD 0))
      else none) := by
  unfold view_init at hok
  cases hd : matmap.dedup with
  | nil => rw [hd] at hok; simp at hok
  | cons m0 rest =>
    rw [hd] at hok
    simp only at hok
    split at hok
    · simp at hok
    · split at hok
      · simp at hok
      · split at hok
        · simp at hok
        · rw [Except.ok.injEq] at hok
          subst hok
          rw [← hd]
          refine ⟨rfl, rfl, rfl, rfl, rfl, ?_, ?_⟩ <;> rfl

theorem mem_of_getElem?_eq_some {l : List α} {i : Nat} {a : α}
    (h : l[i]? = some a) : a ∈ l := by
  obtain ⟨hlt, he⟩ := List.getElem?_eq_some.mp h
  exact he ▸ List.getElem_mem hlt

/-- C1 (amended): for every successfully constructed view, the mapping
array has one entry per point, and the entry for point `i` is the signed
32-bit wrap of
`matmap[i].offset + rcmap[i,0] * matmap[i].leaddim + rcmap[i,1]` — the
exact sum whenever it lies in the int32 range, since the offset and
leading-dimension arrays are `np.int32`. -/
theorem view_mapping_formula (backend : Backend) (matmap : List Mat)
    (rcmap : List (Int × Int)) (stridemap : List (List Int))
    (vshape : List Nat) (v : View)
    (hok : view_init backend matmap rcmap stridemap vshape = .ok v)
    (hrc : rcmap.length = matmap.length) :
    v.mapping.length = matmap.length ∧
    ∀ (i : Nat) (mm : Mat) (rc : Int × Int),
      matmap[i]? = some mm → rcmap[i]? = some rc →
      v.mapping[i]? =
        some (toInt32 (mm.offset + rc.1 * (mm.leaddim : Int) + rc.2)) := by
  obtain ⟨-, -, -, -, hmap, -, -⟩ := view_init_ok _ _ _ _ _ _ hok
  have hoff : (scatterFill matmap.dedup matmap (fun m => toInt32 m.offset)
      (List.replicate matmap.length 0)).length = matmap.length :=
    scatterFill_length _ _ _ _ (by simp)
  have hld : (scatterFill matmap.dedup matmap (fun m => toInt32 (m.leaddim : Int))
      (List.replicate matmap.length 0)).length = matmap.length :=
    scatterFill_length _ _ _ _ (by simp)
  constructor
  · rw [hmap, length_zipWith3, hoff, hld, hrc]
    omega
  · intro i mm rc hi hrci
    have hmem : mm ∈ matmap.dedup := List.mem_dedup.mpr (mem_of_getElem?_eq_some hi)
    have ho := scatterFill_getElem?_mem matmap.dedup matmap
      (fun m => toInt32 m.offset)
      (List.replicate matmap.length 0) i mm (by simp) hi hmem
    have hl := scatterFill_getElem?_mem matmap.dedup matmap
      (fun m => toInt32 (m.leaddim : Int))
      (List.replicate matmap.length 0) i mm (by simp) hi hmem
    rw [hmap, getElem?_zipWith3, ho, hrci, hl]
    show some (add32 (add32 (toInt32 mm.offset)
        (mul32 rc.1 (toInt32 (mm.leaddim : Int)))) rc.2) = _
    rw [mapping_collapse]

/-- A concrete matrix for witnesses: offset 0, leading dimension 8,
element size 4 (the hand-computed example of the spec). -/
def exMat : Mat :=
  { nrow := 4, ncol := 8, leaddim := 8, leadsubdim := 8, dtype := 0
    itemsize := 4, offset := 0, basedata := 0, tags := ∅ }

/-- A concrete backend for witnesses: every matrix is an instance of its
matrix class. -/
def exBackend : Backend :=
  ⟨fun _ => true⟩

/-- Witness for C1: a view over the single matrix `exMat` (offset 0,
leading dimension 8) with one point at row 2, column 3 has a one-entry
mapping whose value is `2*8 + 3 = 19` (in the int32 range, so the wrap
is the identity). -/
theorem view_mapping_formula_witness :
    ∃ v, view_init exBackend [exMat] [(2, 3)] [[1]] [4] = Except.ok v ∧
      v.mapping.length = 1 ∧ v.mapping[0]? = some 19 := by
  obtain ⟨v, hv⟩ : ∃ v, view_init exBackend [exMat] [(2, 3)] [[1]] [4] = Except.ok v :=
    ⟨_, rfl⟩
  refine ⟨v, hv, ?_, ?_⟩
  · exact (view_mapping_formula _ _ _ _ _ _ hv rfl).1
  · have h := (view_mapping_formula _ _ _ _ _ _ hv rfl).2 0 exMat (2, 3) rfl rfl
    rw [h]
    decide

/-- Counterexample to C1 as stated: a matrix whose byte offset is `2^31`
wraps to `-2^31` when stored into the `np.int32` offset array, so the
computed mapping entry for the point `(0, 0)` is `-2^31`, not the exact
`2^31 + 0*8 + 0` the claim asserts. -/
theorem view_mapping_formula_cex :
    ∃ v, view_init exBackend [{ exMat with offset := 2 ^ 31 }] [(0, 0)] [[1]]
        [4] = Except.ok v ∧
      v.mapping[0]? = some (-(2 ^ 31)) ∧
      v.mapping[0]? ≠ some ((2 ^ 31 : Int) + 0 * 8 + 0) := by
  refine ⟨_, rfl, by decide, by decide⟩

/-- Unfolding lemma for `view_init` when the distinct-matrix list is
nonempty: the validation if-chain in source order. -/
theorem view_init_eq_ite (backend : Backend) (matmap : List Mat)
    (rcmap : List (Int × Int)) (stridemap : List (List Int))
    (vshape : List Nat) (m0 : Mat) (rest : List Mat)
    (hd : matmap.dedup = m0 :: rest) :
    view_init backend matmap rcmap stridemap vshape =
      (if (m0 :: rest).any (fun m => ¬ backend.is_matrix_cls m) then
        .error (.typeError ("Incompatible matrix type for view"))
      else if (m0 :: rest).any (fun m => m.basedata ≠ m0.basedata) then
        .error (.typeError ("All viewed matrices must belong to the same allocation extent"))
      else if (m0 :: rest).any (fun m => m.dtype ≠ m0.dtype) then
        .error (.typeError ("Mixed data types are not supported"))
      else
        .ok { n := matmap.length
              nvrow := if vshape.length = 2 then vshape.getD 0 1 else 1
              nvcol := if vshape.length ≥ 1 then vshape.getLastD 1 else 1
              mats := m0 :: rest
              basedata := m0.basedata
              refdtype := m0.dtype
              mapping := List.zipWith3
                (fun o (rc : Int × Int) l => add32 (add32 o (mul32 rc.1 l)) rc.2)
                (scatterFill (m0 :: rest) matmap (fun m => toInt32 m.offset)
                  (List.replicate matmap.length 0))
                rcmap
                (scatterFill (m0 :: rest) matmap (fun m => toInt32 (m.leaddim : Int))
                  (List.replicate matmap.length 0))
              rstrides := if (if vshape.length = 2 then vshape.getD 0 1 else 1) > 1 then
                some (List.zipWith (fun (row : List Int) l => mul32 (row.headD 0) l)
                  stridemap
                  (scatterFill (m0 :: rest) matmap (fun m => toInt32 (m.leaddim : Int))
                    (List.replicate matmap.length 0)))
                else none
              cstrides := if (if vshape.length ≥ 1 then vshape.getLastD 1 else 1) > 1 then
                some (stridemap.map (fun row => row.getLastD 0))
                else none }) := by
  unfold view_init
  rw [hd]

/-- C2: view construction raises `TypeError` whenever two referenced
matrices differ in base allocation, or differ in dtype, or some
referenced matrix is not of the backend's matrix class; with at least one
referenced matrix, it succeeds whenever all referenced matrices agree on
base allocation and dtype and are all of the backend's matrix class. -/
theorem view_validation (backend : Backend) (matmap : List Mat)
    (rcmap : List (Int × Int)) (stridemap : List (List Int))
    (vshape : List Nat) (hne : matmap ≠ []) :
    (((∃ m ∈ matmap, ∃ m' ∈ matmap, m.basedata ≠ m'.basedata) ∨
      (∃ m ∈ matmap, ∃ m' ∈ matmap, m.dtype ≠ m'.dtype) ∨
      (∃ m ∈ matmap, backend.is_matrix_cls m = false)) →
      ∃ s, view_init backend matmap rcmap stridemap vshape =
        .error (.typeError s)) ∧
    (((∀ m ∈ matmap, ∀ m' ∈ matmap, m.basedata = m'.basedata ∧ m.dtype = m'.dtype) ∧
      (∀ m ∈ matmap, backend.is_matrix_cls m = true)) →
      ∃ v, view_init backend matmap rcmap stridemap vshape = .ok v) := by
  obtain ⟨m0, rest, hd⟩ : ∃ m0 rest, matmap.dedup = m0 :: rest := by
    cases hdd : matmap.dedup with
    | nil => exact absurd ((List.dedup_eq_nil matmap).mp hdd) hne
    | cons a l => exact ⟨a, l, rfl⟩
  have hm0 : m0 ∈ matmap := List.mem_dedup.mp (hd ▸ List.mem_cons_self m0 rest)
  have hmem : ∀ m : Mat, m ∈ m0 :: rest ↔ m ∈ matmap := by
    intro m
    rw [← hd, List.mem_dedup]
  rw [view_init_eq_ite backend matmap rcmap stridemap vshape m0 rest hd]
  constructor
  · intro hbad
    by_cases hA : (m0 :: rest).any (fun m => ¬ backend.is_matrix_cls m) = true
    · rw [if_pos hA]
      exact ⟨_, rfl⟩
    · rw [if_neg hA]
      have hcls : ∀ m ∈ matmap, backend.is_matrix_cls m = true := by
        intro m hm
        have := (List.any_eq_false.mp (Bool.eq_false_iff.mpr hA)) m ((hmem m).mpr hm)
        simpa using this
      by_cases hB : (m0 :: rest).any (fun m => m.basedata ≠ m0.basedata) = true
      · rw [if_pos hB]
        exact ⟨_, rfl⟩
      · rw [if_neg hB]
        have hbase : ∀ m ∈ matmap, m.basedata = m0.basedata := by
          intro m hm
          have := (List.any_eq_false.mp (Bool.eq_false_iff.mpr hB)) m ((hmem m).mpr hm)
          simpa using this
        by_cases hC : (m0 :: rest).any (fun m => m.dtype ≠ m0.dtype) = true
        · rw [if_pos hC]
          exact ⟨_, rfl⟩
        · exfalso
          have hdt : ∀ m ∈ matmap, m.dtype = m0.dtype := by
            intro m hm
            have := (List.any_eq_false.mp (Bool.eq_false_iff.mpr hC)) m ((hmem m).mpr hm)
            simpa using this
          rcases hbad with ⟨m, hm, m', hm', hne'⟩ | ⟨m, hm, m', hm', hne'⟩ | ⟨m, hm, hf⟩
          · exact hne' ((hbase m hm).trans (hbase m' hm').symm)
          · exact hne' ((hdt m hm).trans (hdt m' hm').symm)
          · rw [hcls m hm] at hf
            cases hf
  · rintro ⟨hagree, hcls⟩
    have hA : (m0 :: rest).any (fun m => ¬ backend.is_matrix_cls m) = false := by
      rw [List.any_eq_false]
      intro m hm
      simp [hcls m ((hmem m).mp hm)]
    have hB : (m0 :: rest).any (fun m => m.basedata ≠ m0.basedata) = false := by
      rw [List.any_eq_false]
      intro m hm
      simp [(hagree m ((hmem m).mp hm) m0 hm0).1]
    have hC : (m0 :: rest).any (fun m => m.dtype ≠ m0.dtype) = false := by
      rw [List.any_eq_false]
      intro m hm
      simp [(hagree m ((hmem m).mp hm) m0 hm0).2]
    rw [if_neg (by rw [hA]; simp), if_neg (by rw [hB]; simp), if_neg (by rw [hC]; simp)]
    exact ⟨_, rfl⟩

/-- A second concrete matrix, differing from `exMat` in its base
allocation. -/
def exMat2 : Mat :=
  { exMat with basedata := 1 }

/-- Witness for C2: a view over two matrices on different base
allocations fails with a `TypeError`, and the single-matrix view of the
C1 example succeeds. -/
theorem view_validation_witness :
    (∃ s, view_init exBackend [exMat, exMat2] [(2, 3), (0, 0)] [[1], [1]] [4] =
      Except.error (.typeError s)) ∧
    (∃ v, view_init exBackend [exMat] [(2, 3)] [[1]] [4] = Except.ok v) := by
  constructor
  · exact (view_validation exBackend [exMat, exMat2] [(2, 3), (0, 0)] [[1], [1]] [4]
      (by simp)).1
      (Or.inl ⟨exMat, by simp, exMat2, by simp, by decide⟩)
  · exact (view_validation exBackend [exMat] [(2, 3)] [[1]] [4] (by simp)).2
      ⟨by intro m hm m' hm'; simp at hm hm'; subst hm; subst hm'; exact ⟨rfl, rfl⟩,
       by intro m hm; rfl⟩

/-- C3: for integers `0 ≤ p ≤ q ≤ mat.nrow`, the row slice is
constructed with traits `(q-p, leaddim, leadsubdim, dtype)` and tags
`mat.tags ∪ {"slice"}`; for `p < 0` or `q > mat.nrow` or `q < p` the
constructor raises `ValueError`. -/
theorem matrix_rslice_spec (mat : Mat) (p q : Int) :
    ((0 ≤ p → p ≤ q → q ≤ (mat.nrow : Int) →
      ∃ s, matrix_rslice mat p q = .ok s ∧
        s.traits = (q - p, mat.leaddim, mat.leadsubdim, mat.dtype) ∧
        s.tags = mat.tags ∪ {"slice"}) ∧
     ((p < 0 ∨ q > (mat.nrow : Int) ∨ q < p) →
      matrix_rslice mat p q = .error (.valueError ("Invalid row slice")))) := by
  constructor
  · intro h0 hpq hqn
    rw [matrix_rslice, if_neg (by omega)]
    exact ⟨_, rfl, rfl, rfl⟩
  · intro hbad
    rw [matrix_rslice, if_pos hbad]

/-- Witness for C3: slicing rows `[1, 3)` of `exMat` (which has 4 rows)
yields traits `(2, 8, 8, 0)` and the parent's tags plus `"slice"`;
slicing `[3, 1)` raises `ValueError`. -/
theorem matrix_rslice_spec_witness :
    (∃ s, matrix_rslice exMat 1 3 = Except.ok s ∧
      s.traits = (2, 8, 8, 0) ∧ s.tags = exMat.tags ∪ {"slice"}) ∧
    matrix_rslice exMat 3 1 = Except.error (.valueError ("Invalid row slice")) := by
  constructor
  · obtain ⟨s, hs, ht, htg⟩ :=
      (matrix_rslice_spec exMat 1 3).1 (by decide) (by decide) (by decide)
    exact ⟨s, hs, by rw [ht]; rfl, htg⟩
  · exact (matrix_rslice_spec exMat 3 1).2 (by decide)

/-- C8: `rslice` on a matrix bank always raises
`RuntimeError('Matrix banks can not be sliced')` and leaves the bank
unchanged, for every bank and every pair of bounds. -/
theorem matrixBank_rslice_always_fails (b : MatrixBank) (p q : Int) :
    b.rslice p q =
      (Except.error (.runtimeError ("Matrix banks can not be sliced")), b) :=
  rfl

theorem pyGet_nil (i : Int) : pyGet ([] : List α) i = none := by
  simp [pyGet]

/-- C4: bank construction fails whenever two members differ in traits and
whenever two members differ in tags; from members that all share traits
and tags, with the initial index resolving to a member, it succeeds and
the bank's length equals the member count. -/
theorem matrixBank_init_spec (mats : List Mat) (initbank : Int)
    (tags : Finset String) :
    (((∃ m ∈ mats, ∃ m' ∈ mats, m.traits ≠ m'.traits) ∨
      (∃ m ∈ mats, ∃ m' ∈ mats, m.tags ≠ m'.tags)) →
      ∃ e, matrixBank_init mats initbank tags = .error e) ∧
    (((∀ m ∈ mats, ∀ m' ∈ mats, m.traits = m'.traits ∧ m.tags = m'.tags) ∧
      ∃ cm, pyGet mats initbank = some cm) →
      ∃ b, matrixBank_init mats initbank tags = .ok b ∧
        b.len = mats.length) := by
  constructor
  · intro hbad
    have hne : mats ≠ [] := by
      rcases hbad with ⟨m, hm, -⟩ | ⟨m, hm, -⟩ <;>
        exact List.ne_nil_of_mem hm
    obtain ⟨m0, rest, hm⟩ : ∃ m0 rest, mats = m0 :: rest := by
      cases mats with
      | nil => exact absurd rfl hne
      | cons a l => exact ⟨a, l, rfl⟩
    subst hm
    by_cases hT : traitsHetero (m0 :: rest) = true
    · exact ⟨_, by rw [matrixBank_init, if_pos hT]⟩
    · have hTall : ∀ m ∈ m0 :: rest, m.traits = m0.traits := by
        intro m hm
        rcases List.mem_cons.mp hm with h | h
        · rw [h]
        · have := List.any_eq_false.mp (Bool.eq_false_iff.mpr hT) m h
          simpa [traitsHetero] using this
      by_cases hG : tagsHetero (m0 :: rest) = true
      · exact ⟨_, by rw [matrixBank_init, if_neg hT, if_pos hG]⟩
      · exfalso
        have hGall : ∀ m ∈ m0 :: rest, m.tags = m0.tags := by
          intro m hm
          rcases List.mem_cons.mp hm with h | h
          · rw [h]
          · have := List.any_eq_false.mp (Bool.eq_false_iff.mpr hG) m h
            simpa [tagsHetero] using this
        rcases hbad with ⟨m, hm, m', hm', hne'⟩ | ⟨m, hm, m', hm', hne'⟩
        · exact hne' ((hTall m hm).trans (hTall m' hm').symm)
        · exact hne' ((hGall m hm).trans (hGall m' hm').symm)
  · rintro ⟨hhomog, cm, hcm⟩
    obtain ⟨m0, rest, hm⟩ : ∃ m0 rest, mats = m0 :: rest := by
      cases mats with
      | nil => rw [pyGet_nil] at hcm; cases hcm
      | cons a l => exact ⟨a, l, rfl⟩
    subst hm
    have hT : traitsHetero (m0 :: rest) = false := by
      have : ∀ m ∈ rest, m.traits = m0.traits := fun m hm =>
        (hhomog m (List.mem_cons_of_mem m0 hm) m0 (List.mem_cons_self m0 rest)).1
      simp only [traitsHetero, List.any_eq_false]
      intro m hm
      simp [this m hm]
    have hG : tagsHetero (m0 :: rest) = false := by
      have : ∀ m ∈ rest, m.tags = m0.tags := fun m hm =>
        (hhomog m (List.mem_cons_of_mem m0 hm) m0 (List.mem_cons_self m0 rest)).2
      simp only [tagsHetero, List.any_eq_false]
      intro m hm
      simp [this m hm]
    refine ⟨⟨tags ∪ m0.tags, m0 :: rest, initbank, cm⟩, ?_, rfl⟩
    rw [matrixBank_init, if_neg (by rw [hT]; simp), if_neg (by rw [hG]; simp)]
    simp only [hcm]

/-- Witness for C4: two matrices with different row counts are rejected;
a two-member homogeneous bank with initial index 0 is built with
length 2. -/
theorem matrixBank_init_spec_witness :
    (∃ e, matrixBank_init [exMat, { exMat with nrow := 5 }] 0 ∅ = Except.error e) ∧
    (∃ b, matrixBank_init [exMat, exMat] 0 ∅ = Except.ok b ∧ b.len = 2) := by
  constructor
  · exact (matrixBank_init_spec [exMat, { exMat with nrow := 5 }] 0 ∅).1
      (Or.inl ⟨exMat, by simp, { exMat with nrow := 5 }, by simp,
        by simp [Mat.traits, exMat]⟩)
  · exact (matrixBank_init_spec [exMat, exMat] 0 ∅).2
      ⟨by intro m hm m' hm'; simp at hm hm'; rw [hm, hm']; exact ⟨rfl, rfl⟩,
       exMat, by simp [pyGet]⟩

theorem pyGet_natCast (xs : List α) (i : Nat) (hi : i < xs.length) :
    pyGet xs (i : Int) = some (xs.get ⟨i, hi⟩) := by
  have h1 : ¬ ((i : Int) < 0) := by omega
  simp only [pyGet, if_neg h1, if_pos (by omega : (0 : Int) ≤ (i : Int))]
  rw [show ((i : Int)).toNat = i by omega]
  exact List.get?_eq_get hi

theorem pyGet_out_of_range (xs : List α) (idx : Int)
    (hbad : (xs.length : Int) ≤ idx ∨ idx < -(xs.length : Int)) :
    pyGet xs idx = none := by
  rcases hbad with h | h
  · have h1 : ¬ (idx < 0) := by omega
    simp only [pyGet, if_neg h1, if_pos (by omega : (0 : Int) ≤ idx)]
    exact List.get?_eq_none.mpr (by omega)
  · have h1 : idx < 0 := by omega
    simp only [pyGet, if_pos h1]
    rw [if_neg (by omega)]

/-- C5: switching a bank's active index to a valid `i` raises nothing,
makes the `active` property read `i`, and makes every forwarded
attribute lookup resolve to the corresponding attribute of the `i`-th
member (the active member is the list member itself, so no data is
copied). -/
theorem matrixBank_setActive_valid (b : MatrixBank) (i : Nat)
    (hi : i < b.mats.length) :
    (b.setActive (i : Int)).2 = none ∧
    (b.setActive (i : Int)).1.active = (i : Int) ∧
    (b.setActive (i : Int)).1.curr_mat = b.mats.get ⟨i, hi⟩ ∧
    ∀ (α : Type) (f : Mat → α),
      (b.setActive (i : Int)).1.getattr f = f (b.mats.get ⟨i, hi⟩) := by
  have hp : pyGet b.mats (i : Int) = some (b.mats.get ⟨i, hi⟩) :=
    pyGet_natCast b.mats i hi
  have he : b.setActive (i : Int) =
      ({ b with curr_idx := (i : Int), curr_mat := b.mats.get ⟨i, hi⟩ }, none) := by
    simp only [MatrixBank.setActive, hp]
  rw [he]
  exact ⟨rfl, rfl, rfl, fun α f => rfl⟩

/-- Witness for C5: a two-member bank switched to index 1 reads back 1
and forwards the `nrow` attribute of member 1. -/
theorem matrixBank_setActive_valid_witness :
    ((⟨∅, [exMat, { exMat with nrow := 7 }], 0, exMat⟩ :
        MatrixBank).setActive 1).2 = none ∧
    ((⟨∅, [exMat, { exMat with nrow := 7 }], 0, exMat⟩ :
        MatrixBank).setActive 1).1.active = 1 ∧
    ((⟨∅, [exMat, { exMat with nrow := 7 }], 0, exMat⟩ :
        MatrixBank).setActive 1).1.getattr Mat.nrow = 7 := by
  obtain ⟨h1, h2, h3, h4⟩ := matrixBank_setActive_valid
    ⟨∅, [exMat, { exMat with nrow := 7 }], 0, exMat⟩ 1 (by simp)
  refine ⟨by simpa using h1, by simpa using h2, ?_⟩
  have h5 := h4 Nat Mat.nrow
  simpa using h5

/-- C10: switching a bank's active index to a value outside the valid
member range raises `IndexError`, after which the reported active index
is the invalid value while attribute forwarding still targets the
previously active member. -/
theorem matrixBank_setActive_invalid (b : MatrixBank) (idx : Int)
    (hbad : (b.mats.length : Int) ≤ idx ∨ idx < -(b.mats.length : Int)) :
    (b.setActive idx).2 = some PyError.indexError ∧
    (b.setActive idx).1.active = idx ∧
    (b.setActive idx).1.curr_mat = b.curr_mat ∧
    ∀ (α : Type) (f : Mat → α),
      (b.setActive idx).1.getattr f = b.getattr f := by
  have hp : pyGet b.mats idx = none := pyGet_out_of_range b.mats idx hbad
  have he : b.setActive idx =
      ({ b with curr_idx := idx }, some PyError.indexError) := by
    simp only [MatrixBank.setActive, hp]
  rw [he]
  exact ⟨rfl, rfl, rfl, fun α f => rfl⟩

/-- Witness for C10: switching a two-member bank (active member 0, with
4 rows) to index 5 raises `IndexError`; afterwards `active` reads 5
while the forwarded `nrow` is still that of member 0. -/
theorem matrixBank_setActive_invalid_witness :
    ((⟨∅, [exMat, { exMat with nrow := 7 }], 0, exMat⟩ :
        MatrixBank).setActive 5).2 = some PyError.indexError ∧
    ((⟨∅, [exMat, { exMat with nrow := 7 }], 0, exMat⟩ :
        MatrixBank).setActive 5).1.active = 5 ∧
    ((⟨∅, [exMat, { exMat with nrow := 7 }], 0, exMat⟩ :
        MatrixBank).setActive 5).1.getattr Mat.nrow = 4 := by
  obtain ⟨h1, h2, h3, h4⟩ := matrixBank_setActive_invalid
    ⟨∅, [exMat, { exMat with nrow := 7 }], 0, exMat⟩ 5 (by left; simp)
  refine ⟨h1, h2, ?_⟩
  rw [h4 Nat Mat.nrow]
  rfl

/-- C9: the row multiplicity is the second-to-last shape entry exactly
when the target per-point shape has two entries and 1 for every other
shape length; the column multiplicity is the last entry of a non-empty
shape and 1 for the empty shape. -/
theorem view_multiplicities (backend : Backend) (matmap : List Mat)
    (rcmap : List (Int × Int)) (stridemap : List (List Int))
    (vshape : List Nat) (v : View)
    (hok : view_init backend matmap rcmap stridemap vshape = .ok v) :
    (∀ a b : Nat, vshape = [a, b] → v.nvrow = a) ∧
    (vshape.length ≠ 2 → v.nvrow = 1) ∧
    (∀ hne : vshape ≠ [], v.nvcol = vshape.getLast hne) ∧
    (vshape = [] → v.nvcol = 1) := by
  obtain ⟨-, hr, hc, -, -, -, -⟩ := view_init_ok _ _ _ _ _ _ hok
  refine ⟨?_, ?_, ?_, ?_⟩
  · intro a b hab
    subst hab
    rw [hr]
    rfl
  · intro hne2
    rw [hr, if_neg hne2]
  · intro hne
    rw [hc, if_pos (by
      cases vshape with
      | nil => exact absurd rfl hne
      | cons a l => simp)]
    rw [List.getLastD_eq_getLast?, List.getLast?_eq_getLast vshape hne]
    rfl
  · intro hnil
    subst hnil
    rw [hc]
    rfl

/-- Witness for C9: a successfully constructed view with the two-entry
shape `[3, 5]` has `nvrow = 3` and `nvcol = 5`. -/
theorem view_multiplicities_witness :
    ∃ v, view_init exBackend [exMat] [(2, 3)] [[1, 1]] [3, 5] = Except.ok v ∧
      v.nvrow = 3 ∧ v.nvcol = 5 := by
  obtain ⟨v, hv⟩ : ∃ v, view_init exBackend [exMat] [(2, 3)] [[1, 1]] [3, 5] =
      Except.ok v := ⟨_, rfl⟩
  obtain ⟨h1, -, h3, -⟩ := view_multiplicities _ _ _ _ _ _ hv
  exact ⟨v, hv, h1 3 5 rfl, by rw [h3 (by simp)]; rfl⟩

/-- C6 (amended): a view stores the per-point row-stride array exactly
when `nvrow > 1`, with entry `i` equal to the signed 32-bit wrap of
`stridemap[i][0] * matmap[i].leaddim` (the leading dimension being
stored in an `np.int32` cell and the product taken elementwise at that
width — the exact product whenever it fits in int32), and the per-point
column-stride array exactly when `nvcol > 1`, with entry `i` equal to
the last entry of `stridemap[i]` exactly (a pure slice copy); a
multiplicity of 1 leaves the corresponding array absent. -/
theorem view_strides (backend : Backend) (matmap : List Mat)
    (rcmap : List (Int × Int)) (stridemap : List (List Int))
    (vshape : List Nat) (v : View)
    (hok : view_init backend matmap rcmap stridemap vshape = .ok v)
    (hsm : stridemap.length = matmap.length) :
    ((1 < v.nvrow → ∃ rs, v.rstrides = some rs ∧ rs.length = matmap.length ∧
      ∀ (i : Nat) (s0 : Int) (srow : List Int) (mm : Mat),
        stridemap[i]? = some (s0 :: srow) → matmap[i]? = some mm →
        rs[i]? = some (toInt32 (s0 * (mm.leaddim : Int)))) ∧
     (v.nvrow ≤ 1 → v.rstrides = none)) ∧
    ((1 < v.nvcol → ∃ cs, v.cstrides = some cs ∧ cs.length = matmap.length ∧
      ∀ (i : Nat) (s0 : Int) (srow : List Int),
        stridemap[i]? = some (s0 :: srow) →
        cs[i]? = some ((s0 :: srow).getLastD 0)) ∧
     (v.nvcol ≤ 1 → v.cstrides = none)) := by
  obtain ⟨-, hr, hc, -, -, hrs, hcs⟩ := view_init_ok _ _ _ _ _ _ hok
  have hld : (scatterFill matmap.dedup matmap (fun m => toInt32 (m.leaddim : Int))
      (List.replicate matmap.length 0)).length = matmap.length :=
    scatterFill_length _ _ _ _ (by simp)
  constructor
  · constructor
    · intro h1
      rw [hrs, if_pos h1]
      refine ⟨_, rfl, ?_, ?_⟩
      · rw [List.length_zipWith, hld, hsm]
        omega
      · intro i s0 srow mm hsi hmi
        have hmem : mm ∈ matmap.dedup := List.mem_dedup.mpr (mem_of_getElem?_eq_some hmi)
        have hl := scatterFill_getElem?_mem matmap.dedup matmap
          (fun m => toInt32 (m.leaddim : Int))
          (List.replicate matmap.length 0) i mm (by simp) hmi hmem
        rw [List.getElem?_zipWith', hsi, hl]
        show some (mul32 ((s0 :: srow).headD 0) (toInt32 (mm.leaddim : Int))) = _
        rw [List.headD_cons, mul32_toInt32_right]
        rfl
    · intro h1
      rw [hrs, if_neg (by omega)]
  · constructor
    · intro h1
      rw [hcs, if_pos h1]
      refine ⟨_, rfl, ?_, ?_⟩
      · rw [List.length_map, hsm]
      · intro i s0 srow hsi
        rw [List.getElem?_map, hsi]
        rfl
    · intro h1
      rw [hcs, if_neg (by omega)]

/-- Witness for C6: a view with shape `[3, 5]` (both multiplicities
greater than 1) over `exMat` (leading dimension 8) with stride row
`[2, 6]` has row stride `2*8 = 16` and column stride `6` at its single
point. -/
theorem view_strides_witness :
    ∃ v, view_init exBackend [exMat] [(2, 3)] [[2, 6]] [3, 5] = Except.ok v ∧
      (∃ rs, v.rstrides = some rs ∧ rs[0]? = some 16) ∧
      (∃ cs, v.cstrides = some cs ∧ cs[0]? = some 6) := by
  obtain ⟨v, hv⟩ : ∃ v, view_init exBackend [exMat] [(2, 3)] [[2, 6]] [3, 5] =
      Except.ok v := ⟨_, rfl⟩
  obtain ⟨⟨hrow, -⟩, ⟨hcol, -⟩⟩ := view_strides _ _ _ _ _ _ hv rfl
  have hnv : v.nvrow = 3 ∧ v.nvcol = 5 := by
    obtain ⟨-, hr, hc, -, -, -, -⟩ := view_init_ok _ _ _ _ _ _ hv
    exact ⟨by rw [hr]; rfl, by rw [hc]; rfl⟩
  obtain ⟨rs, hrs, -, hrsv⟩ := hrow (by omega)
  obtain ⟨cs, hcs, -, hcsv⟩ := hcol (by omega)
  refine ⟨v, hv, ⟨rs, hrs, ?_⟩, ⟨cs, hcs, ?_⟩⟩
  · have h := hrsv 0 2 [6] exMat rfl rfl
    rw [h]
    decide
  · have h := hcsv 0 2 [6] rfl
    simpa using h

/-- Counterexample to C6 as stated: with leading dimension `2^20` and
stride entry `2^20`, the int32 elementwise product `2^40` wraps to `0`,
so the computed row-stride entry is `0`, not the exact product
`2^20 * 2^20` the claim asserts. -/
theorem view_strides_cex :
    ∃ v, view_init exBackend [{ exMat with leaddim := 2 ^ 20 }] [(0, 0)]
        [[2 ^ 20, 6]] [3, 5] = Except.ok v ∧
      ∃ rs, v.rstrides = some rs ∧ rs[0]? = some 0 ∧
        rs[0]? ≠ some ((2 ^ 20 : Int) * 2 ^ 20) := by
  refine ⟨_, rfl, ⟨_, rfl, by decide, by decide⟩⟩

/-- C7: a successfully constructed MPI view embeds the ordinary view
built from the same maps and shape, copies its point count and
multiplicities, and allocates a staging MPI matrix of shape
`(nvrow, nvcol, n)` carrying the given tags on the same backend. -/
theorem mpi_view_spec (backend : Backend) (matmap : List Mat)
    (rcmap : List (Int × Int)) (stridemap : List (List Int))
    (vshape : List Nat) (tags : Finset String) (mv : MPIView)
    (hok : mpi_view_init backend matmap rcmap stridemap vshape tags = .ok mv) :
    ∃ v, view_init backend matmap rcmap stridemap vshape = .ok v ∧
      mv.view = v ∧ mv.n = v.n ∧ mv.nvrow = v.nvrow ∧ mv.nvcol = v.nvcol ∧
      mv.mpimat = backend.mpi_matrix [v.nvrow, v.nvcol, v.n] tags := by
  unfold mpi_view_init at hok
  cases hb : backend.view matmap rcmap stridemap vshape with
  | error e =>
    rw [hb] at hok
    cases hok
  | ok v =>
    rw [hb] at hok
    rw [Except.ok.injEq] at hok
    subst hok
    exact ⟨v, hb, rfl, rfl, rfl, rfl, rfl⟩

/-- Witness for C7: the MPI view over the C1 example exists, its staging
matrix has shape `[1, 4, 1]` (nvrow 1, nvcol 4, one point) and carries
the given tags. -/
theorem mpi_view_spec_witness :
    ∃ mv, mpi_view_init exBackend [exMat] [(2, 3)] [[1]] [4] {"mpi"} =
        Except.ok mv ∧
      mv.mpimat = exBackend.mpi_matrix [1, 4, 1] {"mpi"} := by
  obtain ⟨mv, hmv⟩ : ∃ mv, mpi_view_init exBackend [exMat] [(2, 3)] [[1]] [4]
      {"mpi"} = Except.ok mv := ⟨_, rfl⟩
  obtain ⟨v, hv, -, -, -, -, hmat⟩ := mpi_view_spec _ _ _ _ _ _ _ hmv
  refine ⟨mv, hmv, ?_⟩
  rw [hmat]
  obtain ⟨hn, hr, hc, -, -, -, -⟩ := view_init_ok _ _ _ _ _ _ hv
  rw [show v.nvrow = 1 from by rw [hr]; rfl,
      show v.nvcol = 4 from by rw [hc]; rfl,
      show v.n = 1 from by rw [hn]; rfl]
